import Mathlib

/-!
Shallow embedding of the Laptop Galleria storefront core (src/app.py):
the inventory/order ledger (cart pricing and the checkout route), the
admin product create/edit operations, and the image normalizer.

Conventions used throughout:
- DB `Integer` columns carry no sign constraint, so `price_cents` and
  `stock` are modelled as `Int`.
- The session cart is a Python dict mapping the decimal string of a
  product id to a quantity; dict keys are unique and iteration follows
  insertion order, so the cart is a `List (Nat × Int)` (the code
  round-trips the keys through `int`), with key-uniqueness as an explicit
  hypothesis where a proof needs it.
- Routes mutate nothing before their first early return, so each route is
  a function from the pre-state to a result record carrying the
  post-state together with the observable outputs (flash message,
  created order, redirect URL).
-/

/-- `Product` row (src/app.py, class Product): integer primary key, name,
unique slug, description, `price_cents` and `stock` as DB integers,
optional stored image file name. -/
structure Product where
  id : Nat
  name : String
  slug : String
  description : String
  priceCents : Int
  imageFilename : Option String
  stock : Int
deriving Repr, DecidableEq

/-- `Order` row (src/app.py, class Order); the timestamp column is not
relevant to any tracked property and is omitted. -/
structure Order where
  id : Nat
  customerName : String
  customerAddress : String
  items : String
  totalCents : Int
deriving Repr, DecidableEq

/-- The record-store state: all `Product` rows and all `Order` rows. -/
structure Store where
  products : List Product
  orders : List Order
deriving Repr, DecidableEq

/-- `Product.query.get(pid)`: fetch a row by primary key. Primary keys are
unique, so taking the first matching row is exact. -/
def getProduct (ps : List Product) (pid : Nat) : Option Product :=
  ps.find? (fun p => p.id == pid)

/-- Two-digit zero-padded rendering of a value below 100. -/
def pad2 (n : Nat) : String :=
  if n < 10 then "0" ++ toString n else toString n

/-- Rendering of a cent amount as a two-decimal peso figure: models the
Python f-string `f"{cents/100.0:.2f}"` applied to `Product.price()` and to
order totals. For nonnegative cent amounts in the store's range (far below
2^45) the float division is exact enough that the float formatting agrees
with this exact decimal computation. -/
def formatCents (c : Int) : String :=
  toString (c / 100) ++ "." ++ pad2 (c % 100).toNat

/-- One checkout line-item summary entry (src/app.py:560):
`f"{p.name} x{qty} @ ₱{p.price():.2f}"`. -/
def itemLine (p : Product) (qty : Int) : String :=
  p.name ++ " x" ++ toString qty ++ " @ ₱" ++ formatCents p.priceCents

/-- Flash message for an out-of-stock line (src/app.py:558):
`f"Not enough stock for {p.name}. Available: {p.stock}"`. -/
def insufficientMsg (name : String) (available : Int) : String :=
  "Not enough stock for " ++ name ++ ". Available: " ++ toString available

/-- Flash message for an empty cart (src/app.py:545). -/
def emptyCartMsg : String := "Cart is empty"

/-- Flash message for a vanished product (src/app.py:555). -/
def productMissingMsg : String := "Product missing"

/-- Loop body of `cart_total_cents` (src/app.py:143-149): add
`price_cents * qty` when the entry's product still exists, silently skip
it otherwise. -/
def totalStep (ps : List Product) (total : Int) (e : Nat × Int) : Int :=
  match getProduct ps e.1 with
  | some p => total + p.priceCents * e.2
  | none => total

/-- `cart_total_cents` continued: the loop is a left fold of `totalStep`
starting from 0. -/
def cart_total_cents (ps : List Product) (cart : List (Nat × Int)) : Int :=
  cart.foldl (totalStep ps) 0

/-- First pass of `checkout` (src/app.py:552-561): walk the cart in order
and bail out with the code's flash message at the first entry whose
product is missing or has `stock < qty`; on success return the line-item
summary list and the accumulated total. -/
def checkoutValidate (ps : List Product) : List (Nat × Int) → Except String (List String × Int)
  | [] => .ok ([], 0)
  | e :: rest =>
    match getProduct ps e.1 with
    | none => .error productMissingMsg
    | some p =>
      if p.stock < e.2 then .error (insufficientMsg p.name p.stock)
      else
        match checkoutValidate ps rest with
        | .error msg => .error msg
        | .ok (ls, t) => .ok (itemLine p e.2 :: ls, p.priceCents * e.2 + t)

/-- Stock decrement on the row with the given id (src/app.py:564-566):
`p.stock = max(p.stock - qty, 0)`. -/
def decrementStock (ps : List Product) (pid : Nat) (qty : Int) : List Product :=
  ps.map (fun p => if p.id == pid then { p with stock := max (p.stock - qty) 0 } else p)

/-- Second pass of `checkout`: decrement every cart line's product, in cart
order. (The code re-fetches each product; after a successful first pass
every fetch succeeds, which is the only situation in which this runs.) -/
def decrementAll (ps : List Product) (cart : List (Nat × Int)) : List Product :=
  cart.foldl (fun acc e => decrementStock acc e.1 e.2) ps

/-- Order id assigned by the database on insert: the autoincrement primary
key, modelled as one past the number of existing orders. -/
def nextOrderId (st : Store) : Nat := st.orders.length + 1

/-- The prefilled Messenger text built on success (src/app.py:576-579):
start from the header f-string, append one `- {line}%0A` piece per
summary line in a loop, then append the total/name/address tail. Line
breaks are written directly as the percent-encoding `%0A`; the peso sign
`₱` is inserted as-is. -/
def orderText (orderId : Nat) (itemsSummary : List String) (total : Int)
    (name address : String) : String :=
  (itemsSummary.foldl (fun acc l => acc ++ ("- " ++ l ++ "%0A"))
      ("Laptop Galleria Order%0AOrder#: " ++ toString orderId ++ "%0A"))
    ++ ("%0ATotal: ₱" ++ formatCents total ++ "%0AName: " ++ name
      ++ "%0AAddress: " ++ address)

/-- Outcome of the `checkout` route: the store afterwards, the session
cart afterwards, the flash message when checkout bailed out, and on
success the created order and the Messenger redirect URL. On a validation
failure the route returns before mutating anything, so store and cart pass
through unchanged. -/
structure CheckoutResult where
  store : Store
  cart : List (Nat × Int)
  flash : Option String
  order : Option Order
  messengerUrl : Option String
deriving Repr, DecidableEq

/-- `checkout` (src/app.py:541-583): empty-cart guard, validate-all pass,
then commit: decrement all stocks, append the order, clear the cart, and
build the Messenger redirect. -/
def checkout (pageUsername : String) (st : Store) (cart : List (Nat × Int))
    (name address : String) : CheckoutResult :=
  if cart.isEmpty then
    { store := st, cart := cart, flash := some emptyCartMsg,
      order := none, messengerUrl := none }
  else
    match checkoutValidate st.products cart with
    | .error msg =>
      { store := st, cart := cart, flash := some msg,
        order := none, messengerUrl := none }
    | .ok (itemsSummary, total) =>
      let o : Order :=
        { id := nextOrderId st, customerName := name,
          customerAddress := address,
          items := String.intercalate "; " itemsSummary,
          totalCents := total }
      { store := { products := decrementAll st.products cart,
                   orders := st.orders ++ [o] },
        cart := [],
        flash := none,
        order := some o,
        messengerUrl := some ("https://m.me/" ++ pageUsername ++ "?text="
          ++ orderText o.id itemsSummary total name address) }

/-- `allowed_file` (src/app.py:90-92), the extension extraction:
`filename.rsplit(".", 1)[-1].lower()` — the characters after the last dot
(the whole name when there is no dot), lowercased. The fold keeps
`some segment` once a dot has been seen, resetting at every dot.
`Char.toLower` matches Python `.lower()` on ASCII, which covers the
allow-list alphabet. -/
def extOf (filename : String) : String :=
  String.mk ((match filename.data.foldl (fun acc c =>
      if c == '.' then some [] else acc.map (fun seg => seg ++ [c])) none with
    | some seg => seg
    | none => filename.data).map Char.toLower)

/-- `allowed_file` (src/app.py:90-92): membership of the extracted
extension in `("jpg", "jpeg", "png", "webp")`. -/
def allowed_file (filename : String) : Bool :=
  extOf filename == "jpg" || extOf filename == "jpeg"
    || extOf filename == "png" || extOf filename == "webp"

/-- Python's built-in `round` applied to an exact multiple of one half,
represented by its double: `pythonRoundHalf k` is `round(k/2)` — nearest
integer, ties to even. The crop box coordinates the code hands to
`PIL.Image.crop` are all of this shape (`(n - target)/2` and that plus an
integer), and the float arithmetic producing them is exact, so this is a
faithful model of the `int(round(·))` Pillow applies to each coordinate. -/
def pythonRoundHalf (k : ℤ) : ℤ :=
  if k % 2 = 0 then k / 2
  else if (k / 2) % 2 = 0 then k / 2 else k / 2 + 1

/-- Output pixel dimensions of `PIL.Image.crop` with box
`(l/2, t/2, r/2, b/2)` (coordinates given as doubles of the actual float
values): Pillow rounds each coordinate with Python `round` and the result
has exactly the rounded box's width and height (a box reaching outside
the source is padded, never clipped). -/
def cropSize (l t r b : ℤ) : ℤ × ℤ :=
  (pythonRoundHalf r - pythonRoundHalf l, pythonRoundHalf b - pythonRoundHalf t)

/-- The scaled (pre-crop) dimensions computed by `save_and_resize_image`
(src/app.py:110-123), as (width, height). The float ratio comparison
`w/h > tw/th` is modelled exactly by cross-multiplication and the float
products with Python `int(·)` as the floor (all quantities positive);
the output-size theorem below is proved independently of which branch is
taken and of the exact scaled values, so float round-off in this step
cannot affect it. -/
def coverDims (w h tw th : ℕ) : ℕ × ℕ :=
  if th * w > tw * h then
    (w * th / h, th)
  else
    (tw, h * tw / w)

/-- Dimensions of the image written by `save_and_resize_image`
(src/app.py:94-134) for a `w × h` source, or `none` when the extension
check rejects the upload: cover-scale to `coverDims`, then center-crop
the float box `(left, top, left + tw, top + th)` with
`left = (new_w - tw)/2` and `top = (new_h - th)/2`. The box is passed to
`cropSize` with every coordinate doubled (so `left` is carried as
`new_w - tw`), which represents these half-integer floats exactly. -/
def resizedDims (filename : String) (w h : ℕ) (tw th : ℕ) : Option (ℤ × ℤ) :=
  if allowed_file filename then
    some (cropSize
      (((coverDims w h tw th).1 : ℤ) - tw)
      (((coverDims w h tw th).2 : ℤ) - th)
      ((((coverDims w h tw th).1 : ℤ) - tw) + 2 * tw)
      ((((coverDims w h tw th).2 : ℤ) - th) + 2 * th))
  else none

/-- Observable output of `save_and_resize_image`: the generated unique
file name (`f"{uuid4().hex}.{ext}"`, the fresh hex supplied here as an
argument) together with the written image's dimensions; `none` when the
extension is rejected, in which case nothing is written. -/
def save_and_resize_image (hex filename : String) (w h : ℕ) (tw th : ℕ) :
    Option (String × ℤ × ℤ) :=
  match resizedDims filename w h tw th with
  | none => none
  | some d => some (hex ++ "." ++ extOf filename, d)

/-- The `filename` computed by `admin_add` (src/app.py:621-624): `None`
when no file was posted, otherwise whatever `save_and_resize_image`
returns (its generated name, or `None` on a rejected extension). -/
def adminUploadFilename (hex : String) (upload : Option (String × ℕ × ℕ)) : Option String :=
  match upload with
  | none => none
  | some u => (save_and_resize_image hex u.1 u.2.1 u.2.2 600 400).map (fun r => r.1)

/-- The `Product(...)` row constructed by `admin_add` (src/app.py:625),
with the autoincrement id modelled as one past the current row count. -/
def newProduct (st : Store) (name slug description : String)
    (priceCents stock : Int) (filename : Option String) : Product :=
  { id := st.products.length + 1, name := name, slug := slug,
    description := description, priceCents := priceCents,
    imageFilename := filename, stock := stock }

/-- `admin_add` (src/app.py:612-633) after form parsing:
`price_cents = int(float(price) * 100)` and `stock = int(stock)` can be
any integers, so they arrive here as `Int` (see `adminPriceCents` for the
parse itself). `upload = some (filename, w, h)` models a nonempty file
field. The unique-slug constraint makes `db.session.commit()` raise when
the slug already exists; the route catches this and rolls back, leaving
the store unchanged. -/
def admin_add (st : Store) (name slug description : String)
    (priceCents stock : Int) (hex : String)
    (upload : Option (String × ℕ × ℕ)) : Store :=
  if (st.products.map (fun q => q.slug)).contains slug then st
  else { st with products := st.products
    ++ [newProduct st name slug description priceCents stock
          (adminUploadFilename hex upload)] }

/-- `admin_edit` (src/app.py:635-668) after form parsing: `newPrice` is
the parsed `int(float(price) * 100)` when the price field is nonempty,
`newStock` the parsed `int(stock)` when the stock field is present. A
`ValueError` while parsing aborts before committing any change, so those
paths are the identity and need no separate model. Image replacement
touches neither price nor stock and is omitted here. -/
def admin_edit (st : Store) (pid : Nat) (newPrice : Option Int)
    (newStock : Option Int) : Store :=
  { st with products := st.products.map (fun p =>
      if p.id == pid then
        { p with
          priceCents := newPrice.getD p.priceCents,
          stock := newStock.getD p.stock }
      else p) }

/-- The spec's product invariant: every row has nonnegative stock and a
nonnegative price. -/
def storeInv (st : Store) : Prop :=
  ∀ p ∈ st.products, 0 ≤ p.stock ∧ 0 ≤ p.priceCents

/-- Fuel-driven binary logarithm helper (structural recursion so concrete
instances evaluate inside the kernel). -/
def lgAux : Nat → Nat → Nat
  | 0, _ => 0
  | fuel + 1, n => if n < 2 then 0 else lgAux fuel (n / 2) + 1

/-- `lg n = ⌊log₂ n⌋` for `n ≥ 1` (and 0 at 0). -/
def lg (n : Nat) : Nat := lgAux n n

/-- Round-half-to-even of the exact fraction `num / den` (with
`den > 0`): the rounding step of IEEE-754 round-to-nearest and of
Python's `round`. -/
def rhe (num den : ℕ) : ℕ :=
  if 2 * (num % den) < den then num / den
  else if den < 2 * (num % den) then num / den + 1
  else if (num / den) % 2 = 0 then num / den else num / den + 1

/-- Fuel-driven count of doublings needed to push `num / den` up to 1:
`negExp num den = -⌊log₂ (num/den)⌋` for `0 < num < den`. -/
def negExpAux : ℕ → ℕ → ℕ → ℕ
  | 0, _, _ => 0
  | fuel + 1, num, den => if den ≤ num then 0 else negExpAux fuel (num * 2) den + 1

/-- Doublings needed to reach 1 (fuel `den` suffices since `2^den ≥ den`). -/
def negExp (num den : ℕ) : ℕ := negExpAux den num den

/-- Rounding of the exact nonnegative fraction `num / den` to the nearest
IEEE-754 binary64 value (ties to even), the arithmetic Python uses for
`float(...)` and float `*`: the exponent is `e = ⌊log₂ (num/den)⌋` and
the significand is the ties-to-even rounding of the value scaled into
`[2^52, 2^53)`. The result is returned as a dyadic pair `(m, s)` denoting
`m / 2^s`. Modelled for the normal range `2^-1022 ≤ num/den < 2^52` met
on the admin price path; above it (`e > 52`) the result is the rounded
integer with scale 0, exact only up to the ulp and unused here, and in
the subnormal range extra doublings simply continue (gradual underflow is
not modelled). -/
def roundDouble (num den : ℕ) : ℕ × ℕ :=
  if den ≤ num then
    if lg (num / den) ≤ 52 then
      (rhe (num * 2 ^ (52 - lg (num / den))) den, 52 - lg (num / den))
    else
      (rhe num den, 0)
  else
    (rhe (num * 2 ^ (52 + negExp num den)) den, 52 + negExp num den)

/-- Digit accumulator for an unsigned decimal literal: collects the
numerator and the power-of-ten denominator, tracking whether the dot was
seen. -/
def parseDecimalAux : List Char → Nat × Nat × Bool → Option (Nat × Nat × Bool)
  | [], st => some st
  | c :: cs, (num, den, seenDot) =>
    if c == '.' then
      if seenDot then none else parseDecimalAux cs (num, den, true)
    else if c.isDigit then
      parseDecimalAux cs (num * 10 + (c.toNat - 48), if seenDot then den * 10 else den, seenDot)
    else none

/-- Exact value of an unsigned decimal literal such as "19.99" (digits
with at most one dot), as a numerator/denominator pair: the value
Python's `float()` grammar denotes before rounding to binary64. -/
def parseDecimal (s : String) : Option (ℕ × ℕ) :=
  if s.isEmpty then none
  else (parseDecimalAux s.data (0, 1, false)).map (fun r => (r.1, r.2.1))

/-- The admin price conversion (src/app.py:619,625 and 643-645):
`int(float(price) * 100)` — parse the decimal literal, round it to
binary64, multiply by 100 in binary64 (one more correctly rounded
operation: the exact product `m * 100 / 2^s` rounded back to binary64),
then truncate to an integer (floor: everything is nonnegative). -/
def adminPriceCents (price : String) : Option Int :=
  (parseDecimal price).map (fun nd =>
    ((roundDouble ((roundDouble nd.1 nd.2).1 * 100) (2 ^ (roundDouble nd.1 nd.2).2)).1
      / 2 ^ (roundDouble ((roundDouble nd.1 nd.2).1 * 100) (2 ^ (roundDouble nd.1 nd.2).2)).2
      : ℕ))

/-- The mathematically exact number of minor currency units denoted by a
decimal peso amount. -/
def exactCents (q : ℚ) : ℚ := q * 100

/-- A cart entry passes the checkout validation: its product exists and
has at least the requested quantity in stock. -/
def entryOk (ps : List Product) (e : Nat × Int) : Bool :=
  match getProduct ps e.1 with
  | some p => decide (e.2 ≤ p.stock)
  | none => false

/-- Spec-side reading of a unit price: the `price_cents` of the product
the cart entry refers to (0 is never read: it is only used under a filter
keeping entries whose product exists). -/
def unitPriceCents (ps : List Product) (pid : Nat) : Int :=
  ((getProduct ps pid).map Product.priceCents).getD 0

/-- Does `needle` occur at the head of `hay`? -/
def leadsWith : List Char → List Char → Bool
  | [], _ => true
  | _ :: _, [] => false
  | c :: cs, d :: ds => c == d && leadsWith cs ds

/-- Does `needle` occur contiguously anywhere in `hay`? -/
def occursIn (needle hay : List Char) : Bool :=
  match hay with
  | [] => needle.isEmpty
  | _ :: t => leadsWith needle hay || occursIn needle t

/-- The item-lines block of the Messenger text: the loop
`for line in items_summary: order_text += f"- {line}%0A"` started from
the empty string. -/
def itemsJoin (itemsSummary : List String) : String :=
  itemsSummary.foldl (fun acc l => acc ++ ("- " ++ l ++ "%0A")) ""

/-- Joining of a line list with the percent-encoded newline `%0A`. -/
def joinLines : List String → String
  | [] => ""
  | [l] => l
  | l :: l₂ :: ls => l ++ "%0A" ++ joinLines (l₂ :: ls)

/-- Spec-side line layout of the Messenger hand-off text: a title line,
an `Order#` line, one `- item` line per summary entry, a blank line, then
`Total:`, `Name:` and `Address:` lines (peso sign written literally). -/
def claimedLines (orderId : Nat) (itemsSummary : List String) (total : Int)
    (name address : String) : List String :=
  "Laptop Galleria Order"
    :: ("Order#: " ++ toString orderId)
    :: (itemsSummary.map (fun l => "- " ++ l)
        ++ ["", "Total: ₱" ++ formatCents total, "Name: " ++ name,
            "Address: " ++ address])

/-- Sample product with comfortable stock, for concrete instantiations. -/
def demoA : Product :=
  { id := 1, name := "A", slug := "a", description := "demo",
    priceCents := 100, imageFilename := none, stock := 5 }

/-- Sample one-product store. -/
def demoStore : Store := { products := [demoA], orders := [] }

/-- Sample product with stock 2, matching the spec's shortfall scenario. -/
def lowStockA : Product :=
  { id := 1, name := "A", slug := "a", description := "demo",
    priceCents := 100, imageFilename := none, stock := 2 }

/-- Sample store for the shortfall scenario. -/
def lowStockStore : Store := { products := [lowStockA], orders := [] }


theorem getProduct_cons (p : Product) (ps : List Product) (pid : Nat) :
    getProduct (p :: ps) pid = if p.id = pid then some p else getProduct ps pid := by
  by_cases h : p.id = pid <;> simp [getProduct, List.find?_cons, h]

theorem decrementStock_cons (p : Product) (ps : List Product) (pid : Nat) (qty : Int) :
    decrementStock (p :: ps) pid qty =
      (if p.id = pid then { p with stock := max (p.stock - qty) 0 } else p)
        :: decrementStock ps pid qty := by
  simp [decrementStock]

theorem getProduct_decrementStock (ps : List Product) (pid : Nat) (qty : Int) (pid' : Nat) :
    getProduct (decrementStock ps pid qty) pid' =
      if pid' = pid then
        (getProduct ps pid').map (fun p => { p with stock := max (p.stock - qty) 0 })
      else getProduct ps pid' := by
  induction ps with
  | nil => by_cases h : pid' = pid <;> simp [getProduct, decrementStock, h]
  | cons p ps ih =>
    rw [decrementStock_cons]
    by_cases h' : pid' = pid
    · subst h'
      by_cases hid : p.id = pid' <;> simp [getProduct_cons, hid, ih]
    · by_cases hid : p.id = pid <;> by_cases hmatch : p.id = pid' <;>
        first
          | omega
          | simp [getProduct_cons, hid, hmatch, ih, h', Ne.symm h']

theorem decrementAll_cons (ps : List Product) (e : Nat × Int) (cart : List (Nat × Int)) :
    decrementAll ps (e :: cart) = decrementAll (decrementStock ps e.1 e.2) cart := rfl

theorem getProduct_decrementAll_notin (cart : List (Nat × Int)) (ps : List Product)
    (pid : Nat) (h : ∀ e ∈ cart, e.1 ≠ pid) :
    getProduct (decrementAll ps cart) pid = getProduct ps pid := by
  induction cart generalizing ps with
  | nil => rfl
  | cons e cart ih =>
    rw [decrementAll_cons, ih _ (fun x hx => h x (List.mem_cons_of_mem e hx)),
      getProduct_decrementStock, if_neg]
    exact fun hc => h e (List.mem_cons_self e cart) hc.symm

theorem getProduct_decrementAll_mem (cart : List (Nat × Int)) (ps : List Product)
    (hnd : (cart.map Prod.fst).Nodup) (pid : Nat) (qty : Int) (hmem : (pid, qty) ∈ cart) :
    getProduct (decrementAll ps cart) pid =
      (getProduct ps pid).map (fun p => { p with stock := max (p.stock - qty) 0 }) := by
  induction cart generalizing ps with
  | nil => cases hmem
  | cons e cart ih =>
    rw [List.map_cons, List.nodup_cons] at hnd
    rcases List.mem_cons.mp hmem with heq | htail
    · subst heq
      have hnotin : ∀ x ∈ cart, x.1 ≠ pid := by
        intro x hx hc
        exact hnd.1 (by simpa [hc] using List.mem_map_of_mem Prod.fst hx)
      rw [decrementAll_cons, getProduct_decrementAll_notin cart _ pid hnotin,
        getProduct_decrementStock, if_pos rfl]
    · have hne : pid ≠ e.1 := by
        intro hc
        exact hnd.1 (by simpa [hc] using List.mem_map_of_mem Prod.fst htail)
      rw [decrementAll_cons, ih _ hnd.2 htail, getProduct_decrementStock, if_neg hne]

theorem entryOk_eq_true_iff (ps : List Product) (e : Nat × Int) :
    entryOk ps e = true ↔ ∃ p, getProduct ps e.1 = some p ∧ e.2 ≤ p.stock := by
  unfold entryOk
  cases hg : getProduct ps e.1 <;> simp [hg]

theorem cart_total_foldl_shift (ps : List Product) (cart : List (Nat × Int)) (a : Int) :
    cart.foldl (totalStep ps) a = a + cart.foldl (totalStep ps) 0 := by
  induction cart generalizing a with
  | nil => simp
  | cons e cart ih =>
    rw [List.foldl_cons, List.foldl_cons, ih, ih (totalStep ps 0 e)]
    unfold totalStep
    cases hg : getProduct ps e.1 <;> simp [hg, add_assoc]

theorem cart_total_cents_cons (ps : List Product) (e : Nat × Int) (cart : List (Nat × Int)) :
    cart_total_cents ps (e :: cart) = totalStep ps 0 e + cart_total_cents ps cart := by
  unfold cart_total_cents
  rw [List.foldl_cons, cart_total_foldl_shift]

theorem checkoutValidate_error_of_bad (ps : List Product) (cart : List (Nat × Int))
    (h : ∃ e ∈ cart, getProduct ps e.1 = none ∨
        ∃ p, getProduct ps e.1 = some p ∧ p.stock < e.2) :
    ∃ msg, checkoutValidate ps cart = .error msg := by
  induction cart with
  | nil => simp at h
  | cons e cart ih =>
    rcases h with ⟨e', he', hbad⟩
    rcases List.mem_cons.mp he' with rfl | htail
    · cases hg : getProduct ps e'.1 with
      | none => exact ⟨productMissingMsg, by simp [checkoutValidate, hg]⟩
      | some p =>
        rcases hbad with hnone | ⟨p', hp', hlt⟩
        · rw [hg] at hnone; cases hnone
        · rw [hg] at hp'; injection hp' with hpp; subst hpp
          exact ⟨insufficientMsg p.name p.stock, by simp [checkoutValidate, hg, hlt]⟩
    · cases hg : getProduct ps e.1 with
      | none => exact ⟨productMissingMsg, by simp [checkoutValidate, hg]⟩
      | some p =>
        by_cases hlt : p.stock < e.2
        · exact ⟨insufficientMsg p.name p.stock, by simp [checkoutValidate, hg, hlt]⟩
        · obtain ⟨msg, hmsg⟩ := ih ⟨e', htail, hbad⟩
          exact ⟨msg, by simp [checkoutValidate, hg, hlt, hmsg]⟩

theorem checkoutValidate_ok_of_all (ps : List Product) (cart : List (Nat × Int))
    (h : cart.all (entryOk ps) = true) :
    ∃ ls, checkoutValidate ps cart = .ok (ls, cart_total_cents ps cart) := by
  induction cart with
  | nil => exact ⟨[], rfl⟩
  | cons e cart ih =>
    rw [List.all_cons, Bool.and_eq_true] at h
    obtain ⟨p, hg, hle⟩ := (entryOk_eq_true_iff ps e).mp h.1
    obtain ⟨ls, hls⟩ := ih h.2
    refine ⟨itemLine p e.2 :: ls, ?_⟩
    rw [cart_total_cents_cons]
    simp [checkoutValidate, hg, not_lt.mpr hle, hls, totalStep]

theorem pythonRoundHalf_add_even (k c : ℤ) (hc : c % 2 = 0) :
    pythonRoundHalf (k + 2 * c) = pythonRoundHalf k + c := by
  unfold pythonRoundHalf
  split_ifs <;> omega

theorem cropSize_target (l t : ℤ) (tw th : ℤ) (hw : tw % 2 = 0) (hh : th % 2 = 0) :
    cropSize l t (l + 2 * tw) (t + 2 * th) = (tw, th) := by
  unfold cropSize
  rw [pythonRoundHalf_add_even l tw hw, pythonRoundHalf_add_even t th hh]
  simp

theorem foldl_append_shift (f : String → String) (items : List String) (a : String) :
    items.foldl (fun acc l => acc ++ f l) a = a ++ items.foldl (fun acc l => acc ++ f l) "" := by
  induction items generalizing a with
  | nil => simp
  | cons l items ih =>
    rw [List.foldl_cons, List.foldl_cons, ih, ih ("" ++ f l)]
    simp [String.append_assoc]

theorem itemsJoin_cons (l : String) (items : List String) :
    itemsJoin (l :: items) = ("- " ++ l ++ "%0A") ++ itemsJoin items := by
  unfold itemsJoin
  rw [List.foldl_cons, foldl_append_shift (fun l => "- " ++ l ++ "%0A")]
  simp

theorem joinLines_cons_ne (a : String) (t : List String) (ht : t ≠ []) :
    joinLines (a :: t) = a ++ "%0A" ++ joinLines t := by
  cases t with
  | nil => exact absurd rfl ht
  | cons b bs => rfl

theorem joinLines_items_block (items : List String) (x : String) (xs : List String) :
    joinLines (items.map (fun l => "- " ++ l) ++ (x :: xs)) =
      itemsJoin items ++ joinLines (x :: xs) := by
  induction items with
  | nil => simp [itemsJoin]
  | cons l items ih =>
    rw [List.map_cons, List.cons_append,
      joinLines_cons_ne _ _ (by simp),
      ih, itemsJoin_cons]
    simp [String.append_assoc]

theorem orderText_eq_joinLines (orderId : Nat) (items : List String) (total : Int)
    (name address : String) :
    orderText orderId items total name address =
      joinLines (claimedLines orderId items total name address) := by
  unfold orderText claimedLines
  rw [foldl_append_shift (fun l => "- " ++ l ++ "%0A")]
  rw [joinLines_cons_ne _ _ (by simp),
    joinLines_cons_ne _ _ (by simp),
    joinLines_items_block items "" _]
  rw [show ("Laptop Galleria Order%0AOrder#: " : String) =
      "Laptop Galleria Order" ++ "%0A" ++ "Order#: " from by decide]
  rw [show ("%0ATotal: ₱" : String) = "%0A" ++ "Total: ₱" from by decide]
  rw [show ("%0AName: " : String) = "%0A" ++ "Name: " from by decide]
  rw [show ("%0AAddress: " : String) = "%0A" ++ "Address: " from by decide]
  simp only [itemsJoin, joinLines, String.append_assoc, String.empty_append]

/-- C1: Checkout is all-or-nothing. If the cart is empty, or any cart
entry references a missing product or requests more than that product's
current stock, then checkout fails with a flash message, the store
(all product stocks and all orders) is unchanged, no order is created,
and the session cart is left as it was. -/
theorem checkout_all_or_nothing (pageUsername : String) (st : Store)
    (cart : List (Nat × Int)) (name address : String)
    (h : cart = [] ∨ ∃ e ∈ cart, getProduct st.products e.1 = none ∨
        ∃ p, getProduct st.products e.1 = some p ∧ p.stock < e.2) :
    (checkout pageUsername st cart name address).store = st ∧
    (checkout pageUsername st cart name address).order = none ∧
    (checkout pageUsername st cart name address).cart = cart ∧
    ∃ msg, (checkout pageUsername st cart name address).flash = some msg := by
  by_cases hemp : cart.isEmpty = true
  · refine ⟨?_, ?_, ?_, emptyCartMsg, ?_⟩ <;> simp [checkout, hemp]
  · obtain ⟨msg, hmsg⟩ := checkoutValidate_error_of_bad st.products cart (by
      rcases h with hnil | hbad
      · exact absurd (by simp [hnil]) hemp
      · exact hbad)
    refine ⟨?_, ?_, ?_, msg, ?_⟩ <;> simp [checkout, hemp, hmsg]

/-- Witness for C1 at a concrete input: a one-line cart requesting 10
units of a product with stock 2 makes checkout fail and change nothing. -/
theorem checkout_all_or_nothing_witness :
    (checkout "page" lowStockStore [(1, 10)] "n" "a").store = lowStockStore ∧
    (checkout "page" lowStockStore [(1, 10)] "n" "a").order = none ∧
    (checkout "page" lowStockStore [(1, 10)] "n" "a").cart = [(1, 10)] ∧
    ∃ msg, (checkout "page" lowStockStore [(1, 10)] "n" "a").flash = some msg :=
  checkout_all_or_nothing "page" lowStockStore [(1, 10)] "n" "a"
    (Or.inr ⟨(1, 10), by decide, Or.inr ⟨lowStockA, by decide, by decide⟩⟩)

/-- C2: For a cart with distinct product keys whose entries all pass
validation (product exists and `stock ≥ qty`), checkout succeeds and, for
every line item, the product's new stock equals its old stock minus the
cart quantity, and that new stock is nonnegative. -/
theorem checkout_success_stock_decrement (pageUsername : String) (st : Store)
    (cart : List (Nat × Int)) (name address : String)
    (hnd : (cart.map Prod.fst).Nodup)
    (hok : cart.all (entryOk st.products) = true) :
    ∀ e ∈ cart, ∀ p, getProduct st.products e.1 = some p →
      getProduct (checkout pageUsername st cart name address).store.products e.1 =
        some { p with stock := p.stock - e.2 } ∧ 0 ≤ p.stock - e.2 := by
  intro e he p hp
  have hne : cart ≠ [] := by rintro rfl; cases he
  have hemp : ¬ cart.isEmpty = true := by simpa [List.isEmpty_iff] using hne
  obtain ⟨ls, hls⟩ := checkoutValidate_ok_of_all st.products cart hok
  have hle : e.2 ≤ p.stock := by
    have hOk : entryOk st.products e = true := by
      rw [List.all_eq_true] at hok
      exact hok e he
    obtain ⟨p', hp', hle'⟩ := (entryOk_eq_true_iff st.products e).mp hOk
    rw [hp] at hp'
    injection hp' with hpp
    subst hpp
    exact hle'
  have hstore : (checkout pageUsername st cart name address).store.products =
      decrementAll st.products cart := by
    simp [checkout, hemp, hls]
  rw [hstore]
  have hmem : (e.1, e.2) ∈ cart := by simpa using he
  rw [getProduct_decrementAll_mem cart st.products hnd e.1 e.2 hmem, hp]
  refine ⟨?_, by omega⟩
  simp [max_eq_left (by omega : (0 : ℤ) ≤ p.stock - e.2)]

/-- Witness for C2 at a concrete input: cart {A: 2} against stock 5
leaves stock 3. -/
theorem checkout_success_stock_decrement_witness :
    getProduct (checkout "page" demoStore [(1, 2)] "n" "a").store.products 1 =
      some { demoA with stock := demoA.stock - 2 } ∧ (0 : ℤ) ≤ demoA.stock - 2 :=
  checkout_success_stock_decrement "page" demoStore [(1, 2)] "n" "a"
    (by decide) (by decide) (1, 2) (by decide) demoA (by decide)

/-- C3: After a successful checkout the session cart is empty and exactly
one new order was appended, whose `total_cents` equals the pre-checkout
grand total `cart_total_cents` of the cart. -/
theorem checkout_success_order_and_cart (pageUsername : String) (st : Store)
    (cart : List (Nat × Int)) (name address : String)
    (hne : cart ≠ [])
    (hok : cart.all (entryOk st.products) = true) :
    ∃ o : Order,
      (checkout pageUsername st cart name address).order = some o ∧
      (checkout pageUsername st cart name address).cart = [] ∧
      (checkout pageUsername st cart name address).store.orders = st.orders ++ [o] ∧
      o.totalCents = cart_total_cents st.products cart := by
  have hemp : ¬ cart.isEmpty = true := by simpa [List.isEmpty_iff] using hne
  obtain ⟨ls, hls⟩ := checkoutValidate_ok_of_all st.products cart hok
  refine ⟨{ id := nextOrderId st, customerName := name, customerAddress := address,
            items := String.intercalate "; " ls,
            totalCents := cart_total_cents st.products cart }, ?_, ?_, ?_, rfl⟩ <;>
    simp [checkout, hemp, hls]

/-- Witness for C3 at a concrete input: cart {A: 2} at price 100 cents
yields an order of 200 cents and an empty cart. -/
theorem checkout_success_order_and_cart_witness :
    ∃ o : Order,
      (checkout "page" demoStore [(1, 2)] "n" "a").order = some o ∧
      (checkout "page" demoStore [(1, 2)] "n" "a").cart = [] ∧
      (checkout "page" demoStore [(1, 2)] "n" "a").store.orders = demoStore.orders ++ [o] ∧
      o.totalCents = cart_total_cents demoStore.products [(1, 2)] :=
  checkout_success_order_and_cart "page" demoStore [(1, 2)] "n" "a"
    (by decide) (by decide)

/-- C4: Pricing the cart returns the sum of `price_cents * qty` over
exactly those entries whose product still exists; entries referencing a
missing product are silently skipped. (`cart_total_cents` reads state and
returns an integer; it mutates nothing.) -/
theorem cart_total_cents_is_existing_sum (ps : List Product) (cart : List (Nat × Int)) :
    cart_total_cents ps cart =
      ((cart.filter (fun e => (getProduct ps e.1).isSome)).map
        (fun e => unitPriceCents ps e.1 * e.2)).sum := by
  induction cart with
  | nil => rfl
  | cons e cart ih =>
    rw [cart_total_cents_cons, ih]
    cases hg : getProduct ps e.1 <;>
      simp [totalStep, hg, unitPriceCents, List.filter_cons]

theorem decrementStock_inv (ps : List Product) (pid : Nat) (qty : Int)
    (h : ∀ p ∈ ps, 0 ≤ p.stock ∧ 0 ≤ p.priceCents) :
    ∀ p ∈ decrementStock ps pid qty, 0 ≤ p.stock ∧ 0 ≤ p.priceCents := by
  intro p hp
  obtain ⟨q, hq, rfl⟩ := List.mem_map.mp hp
  by_cases hid : q.id = pid <;> simp [hid] <;>
    first
      | exact h q hq
      | exact (h q hq).2

theorem decrementAll_inv (cart : List (Nat × Int)) (ps : List Product)
    (h : ∀ p ∈ ps, 0 ≤ p.stock ∧ 0 ≤ p.priceCents) :
    ∀ p ∈ decrementAll ps cart, 0 ≤ p.stock ∧ 0 ≤ p.priceCents := by
  induction cart generalizing ps with
  | nil => exact h
  | cons e cart ih =>
    rw [decrementAll_cons]
    exact ih _ (decrementStock_inv ps e.1 e.2 h)

/-- C5 counterexample: the claim fails on the code. Starting from a store
satisfying the invariants, `admin_edit` applied with the parsed stock
input `-1` (the form accepts "-1" and `int("-1")` parses fine) produces a
store with a negative stock. -/
theorem admin_edit_negative_stock_breaks_invariant :
    storeInv demoStore ∧ ¬ storeInv (admin_edit demoStore 1 none (some (-1))) := by
  constructor
  · unfold storeInv
    decide
  · unfold storeInv
    decide

/-- C5 (amended): checkout always preserves `stock ≥ 0` and
`price_cents ≥ 0`; admin create and admin edit preserve them provided the
parsed price and stock inputs are themselves nonnegative (the routes
accept negative form inputs unchecked). -/
theorem core_ops_preserve_invariants (pageUsername : String) (st : Store)
    (cart : List (Nat × Int)) (name address : String) (hinv : storeInv st) :
    storeInv (checkout pageUsername st cart name address).store ∧
    (∀ nm sl de pc sk hex up, 0 ≤ pc → 0 ≤ sk →
      storeInv (admin_add st nm sl de pc sk hex up)) ∧
    (∀ pid np ns, (∀ x, np = some x → (0 : Int) ≤ x) →
      (∀ x, ns = some x → (0 : Int) ≤ x) →
      storeInv (admin_edit st pid np ns)) := by
  refine ⟨?_, ?_, ?_⟩
  · by_cases hemp : cart.isEmpty = true
    · simpa [checkout, hemp] using hinv
    · cases hval : checkoutValidate st.products cart with
      | error msg => simpa [checkout, hemp, hval] using hinv
      | ok pr =>
        obtain ⟨ls, t⟩ := pr
        intro p hp
        have hps : (checkout pageUsername st cart name address).store.products =
            decrementAll st.products cart := by
          simp [checkout, hemp, hval]
        exact decrementAll_inv cart st.products hinv p (hps ▸ hp)
  · intro nm sl de pc sk hex up hpc hsk
    by_cases hdup : (st.products.map (fun q => q.slug)).contains sl = true
    · have heq : admin_add st nm sl de pc sk hex up = st := by
        simp only [admin_add]
        rw [if_pos hdup]
      rw [heq]
      exact hinv
    · intro p hp
      have hps : (admin_add st nm sl de pc sk hex up).products =
          st.products
            ++ [newProduct st nm sl de pc sk (adminUploadFilename hex up)] := by
        simp only [admin_add]
        rw [if_neg hdup]
      rw [hps] at hp
      rcases List.mem_append.mp hp with hold | hnew
      · exact hinv p hold
      · rw [List.mem_singleton] at hnew
        subst hnew
        exact ⟨hsk, hpc⟩
  · intro pid np ns hnp hns p hp
    unfold admin_edit at hp
    obtain ⟨q, hq, rfl⟩ := List.mem_map.mp hp
    by_cases hid : q.id = pid <;> simp [hid]
    · constructor
      · cases ns with
        | none => simpa using (hinv q hq).1
        | some x => simpa using hns x rfl
      · cases np with
        | none => simpa using (hinv q hq).2
        | some x => simpa using hnp x rfl
    · exact hinv q hq

/-- Witness for C5 (amended) at a concrete input. -/
theorem core_ops_preserve_invariants_witness :
    storeInv (checkout "page" demoStore [(1, 2)] "n" "a").store ∧
    (∀ nm sl de pc sk hex up, 0 ≤ pc → 0 ≤ sk →
      storeInv (admin_add demoStore nm sl de pc sk hex up)) ∧
    (∀ pid np ns, (∀ x, np = some x → (0 : Int) ≤ x) →
      (∀ x, ns = some x → (0 : Int) ≤ x) →
      storeInv (admin_edit demoStore pid np ns)) :=
  core_ops_preserve_invariants "page" demoStore [(1, 2)] "n" "a"
    (by unfold storeInv; decide)

/-- C6 counterexample: the claim fails on the code. For cart {A: 10} with
A's stock 2, the reported error (the flash message) names the product and
the available stock but not the requested quantity: the digits "10" occur
nowhere in it. (Stock and cart are indeed left unchanged.) -/
theorem insufficient_flash_lacks_requested_qty :
    (checkout "page" lowStockStore [(1, 10)] "n" "a").flash =
      some "Not enough stock for A. Available: 2" ∧
    (checkout "page" lowStockStore [(1, 10)] "n" "a").store = lowStockStore ∧
    (checkout "page" lowStockStore [(1, 10)] "n" "a").cart = [(1, 10)] ∧
    occursIn "10".data "Not enough stock for A. Available: 2".data = false := by
  decide

/-- C6 (amended): when checkout fails on a single-entry cart whose
quantity exceeds the product's stock, the reported error is the flash
message naming the offending product and its available stock (but not the
requested quantity), and stock, cart and order list are unchanged. -/
theorem checkout_insufficient_reports_name_available (pageUsername : String)
    (st : Store) (pid : Nat) (qty : Int) (name address : String) (p : Product)
    (hp : getProduct st.products pid = some p) (hlt : p.stock < qty) :
    (checkout pageUsername st [(pid, qty)] name address).flash =
      some (insufficientMsg p.name p.stock) ∧
    (checkout pageUsername st [(pid, qty)] name address).store = st ∧
    (checkout pageUsername st [(pid, qty)] name address).cart = [(pid, qty)] ∧
    (checkout pageUsername st [(pid, qty)] name address).order = none := by
  have hval : checkoutValidate st.products [(pid, qty)] =
      .error (insufficientMsg p.name p.stock) := by
    simp [checkoutValidate, hp, hlt]
  refine ⟨?_, ?_, ?_, ?_⟩ <;> simp [checkout, hval]

/-- Witness for C6 (amended) at the spec's scenario: cart {A: 10} with
stock 2 reports product A and available 2. -/
theorem checkout_insufficient_reports_witness :
    (checkout "page" lowStockStore [(1, 10)] "n" "a").flash =
      some (insufficientMsg lowStockA.name lowStockA.stock) ∧
    (checkout "page" lowStockStore [(1, 10)] "n" "a").store = lowStockStore ∧
    (checkout "page" lowStockStore [(1, 10)] "n" "a").cart = [(1, 10)] ∧
    (checkout "page" lowStockStore [(1, 10)] "n" "a").order = none :=
  checkout_insufficient_reports_name_available "page" lowStockStore 1 10 "n" "a"
    lowStockA (by decide) (by decide)

theorem cropSize_target_nat (l t : ℤ) (tw th : ℕ)
    (hw : (tw : ℤ) % 2 = 0) (hh : (th : ℤ) % 2 = 0) :
    cropSize l t (l + 2 * tw) (t + 2 * th) = ((tw : ℤ), (th : ℤ)) :=
  cropSize_target l t tw th hw hh

/-- C7: For every accepted source image of positive dimensions, the
normalizer's output is exactly 600 × 400 (the `output_size` both call
sites pass), and normalizing an image already of the target dimensions
leaves the dimensions unchanged. -/
theorem normalizer_output_dimensions (filename : String) (w h : ℕ)
    (hw : 0 < w) (hh : 0 < h) (hallow : allowed_file filename = true) :
    resizedDims filename w h 600 400 = some (600, 400) ∧
    resizedDims filename 600 400 600 400 = some (600, 400) := by
  constructor <;>
    (unfold resizedDims
     rw [if_pos hallow, cropSize_target_nat _ _ 600 400 (by decide) (by decide)]
     norm_num)

/-- Witness for C7 at a concrete input: a 123 × 457 JPEG normalizes to
600 × 400. -/
theorem normalizer_output_dimensions_witness :
    0 < 123 ∧ 0 < 457 ∧ allowed_file "photo.JPG" = true ∧
    (resizedDims "photo.JPG" 123 457 600 400 = some (600, 400) ∧
     resizedDims "photo.JPG" 600 400 600 400 = some (600, 400)) :=
  ⟨by decide, by decide, by decide,
    normalizer_output_dimensions "photo.JPG" 123 457 (by decide) (by decide) (by decide)⟩

/-- C8: The normalizer produces no output (and writes no file) exactly
when the extracted extension is outside {jpg, jpeg, png, webp}; in that
case `admin_add` still creates the product (given a fresh slug), with no
image attached. -/
theorem image_rejected_iff_bad_extension (hex filename : String) (w h : ℕ)
    (st : Store) (nm sl de : String) (pc sk : Int)
    (hslug : (st.products.map (fun q => q.slug)).contains sl = false) :
    (save_and_resize_image hex filename w h 600 400 = none ↔
      extOf filename ∉ (["jpg", "jpeg", "png", "webp"] : List String)) ∧
    (allowed_file filename = false →
      (admin_add st nm sl de pc sk hex (some (filename, w, h))).products =
        st.products ++ [newProduct st nm sl de pc sk none]) := by
  constructor
  · by_cases hall : allowed_file filename = true
    · have hmem : extOf filename ∈ (["jpg", "jpeg", "png", "webp"] : List String) := by
        simp only [allowed_file, Bool.or_eq_true, beq_iff_eq] at hall
        rcases hall with ((h1 | h1) | h1) | h1 <;> simp [h1]
      simp [save_and_resize_image, resizedDims, hall, hmem]
    · have hf : allowed_file filename = false := by
        simpa using hall
      have hmem : extOf filename ∉ (["jpg", "jpeg", "png", "webp"] : List String) := by
        intro hc
        have hT : allowed_file filename = true := by
          simp only [List.mem_cons, List.not_mem_nil, or_false] at hc
          simp only [allowed_file, Bool.or_eq_true, beq_iff_eq]
          tauto
        simp [hT] at hf
      simp [save_and_resize_image, resizedDims, hf, hmem]
  · intro hf
    have hfn : adminUploadFilename hex (some (filename, w, h)) = none := by
      simp [adminUploadFilename, save_and_resize_image, resizedDims, hf]
    have hps : (admin_add st nm sl de pc sk hex (some (filename, w, h))).products =
        st.products
          ++ [newProduct st nm sl de pc sk
                (adminUploadFilename hex (some (filename, w, h)))] := by
      simp only [admin_add]
      rw [if_neg (by rw [hslug]; exact Bool.false_ne_true)]
    rw [hps, hfn]

/-- Witness for C8 at a concrete input: an `.exe` upload is rejected and
the product is still created without an image. -/
theorem image_rejected_iff_bad_extension_witness :
    ((demoStore.products.map (fun q => q.slug)).contains "b" = false) ∧
    ((save_and_resize_image "h" "virus.exe" 10 10 600 400 = none ↔
      extOf "virus.exe" ∉ (["jpg", "jpeg", "png", "webp"] : List String)) ∧
     (allowed_file "virus.exe" = false →
      (admin_add demoStore "N" "b" "d" 5 7 "h" (some ("virus.exe", 10, 10))).products =
        demoStore.products ++ [newProduct demoStore "N" "b" "d" 5 7 none])) :=
  ⟨by decide, image_rejected_iff_bad_extension "h" "virus.exe" 10 10 demoStore
    "N" "b" "d" 5 7 (by decide)⟩

/-- C9 counterexample: the claim fails on the code. A successful concrete
checkout produces a Messenger text in which the currency symbol `₱`
appears literally — it is not percent-encoded (a percent-encoded
occurrence would leave no raw `₱` in the text). -/
theorem messenger_text_contains_raw_peso :
    (checkout "page" demoStore [(1, 1)] "N" "D").messengerUrl =
      some "https://m.me/page?text=Laptop Galleria Order%0AOrder#: 1%0A- A x1 @ ₱1.00%0A%0ATotal: ₱1.00%0AName: N%0AAddress: D" ∧
    occursIn "₱".data
      "https://m.me/page?text=Laptop Galleria Order%0AOrder#: 1%0A- A x1 @ ₱1.00%0A%0ATotal: ₱1.00%0AName: N%0AAddress: D".data
      = true := by
  decide

/-- C9 (amended): on every successful checkout the hand-off text is the
claimed line layout — a title line, an `Order#` line, one `- item` line
per summary entry, a blank line, then `Total:`, `Name:` and `Address:` —
joined with the percent-encoding `%0A` standing for each newline; the
currency symbol `₱` is embedded literally (see the counterexample), not
percent-encoded. -/
theorem checkout_messenger_layout (pageUsername : String) (st : Store)
    (cart : List (Nat × Int)) (name address : String)
    (hne : cart ≠ []) (hok : cart.all (entryOk st.products) = true) :
    ∃ ls, checkoutValidate st.products cart =
        .ok (ls, cart_total_cents st.products cart) ∧
      (checkout pageUsername st cart name address).messengerUrl =
        some ("https://m.me/" ++ pageUsername ++ "?text="
          ++ joinLines (claimedLines (nextOrderId st) ls
              (cart_total_cents st.products cart) name address)) := by
  have hemp : ¬ cart.isEmpty = true := by simpa [List.isEmpty_iff] using hne
  obtain ⟨ls, hls⟩ := checkoutValidate_ok_of_all st.products cart hok
  exact ⟨ls, hls, by simp [checkout, hemp, hls, orderText_eq_joinLines]⟩

/-- Witness for C9 (amended) at a concrete input. -/
theorem checkout_messenger_layout_witness :
    ∃ ls, checkoutValidate demoStore.products [(1, 1)] =
        .ok (ls, cart_total_cents demoStore.products [(1, 1)]) ∧
      (checkout "page" demoStore [(1, 1)] "N" "D").messengerUrl =
        some ("https://m.me/" ++ "page" ++ "?text="
          ++ joinLines (claimedLines (nextOrderId demoStore) ls
              (cart_total_cents demoStore.products [(1, 1)]) "N" "D")) :=
  checkout_messenger_layout "page" demoStore [(1, 1)] "N" "D"
    (by decide) (by decide)

/-- C10: There is an admin price input — "19.99" — whose stored
`price_cents`, computed as `int(float(price) * 100)` through binary64
floating point with truncation, is 1998, while the exact number of minor
units denoted by 19.99 is 1999. -/
theorem admin_price_truncates_below_exact_cents :
    parseDecimal "19.99" = some (1999, 100) ∧
    adminPriceCents "19.99" = some 1998 ∧
    exactCents ((1999 : ℚ)/100) = 1999 ∧
    (1998 : ℤ) ≠ 1999 := by
  refine ⟨by decide, by decide, ?_, by decide⟩
  unfold exactCents
  norm_num
